import Mathlib

/-!
# RealSync AI inference service — shallow embedding and verification

Shallow Lean embedding of the RealSync per-frame analysis pipeline
(`serve/identity_tracker.py`, `serve/inference.py`, `serve/app.py`,
`serve/config.py`).  Machine floats are modelled by exact real numbers;
Python's `round(x, 4)` is modelled as round-half-to-even on the reals.
External black boxes (cv2 decoding, MediaPipe detection, the MesoNet and
FER models, the fixed seed-42 random projection matrix) are parameters of
the embedding: the pipeline's own arithmetic and control flow is
translated literally from the source.  Wall-clock timestamp fields
(`capturedAt`, `processedAt`) and logging are omitted: no claim concerns
them.
-/

namespace RealSync

/-- Fixed-length numeric vector (numpy 1-d float array). -/
def Vec (d : ℕ) : Type := Fin d → ℝ

/-- Dot product `np.dot` of two vectors. -/
noncomputable def dotv {d : ℕ} (v w : Vec d) : ℝ := ∑ i, v i * w i

/-- Norm `np.linalg.norm`: Euclidean (L2) norm. -/
noncomputable def norm2 {d : ℕ} (v : Vec d) : ℝ := Real.sqrt (dotv v v)

/-- The `norm = np.linalg.norm(v); if norm > 0: v = v / norm` idiom used
throughout `identity_tracker.py`. -/
noncomputable def normalizeIfPos {d : ℕ} (v : Vec d) : Vec d :=
  if 0 < norm2 v then fun i => v i / norm2 v else v

/-- Python's `round` to an integer: round half to even. -/
noncomputable def pyRoundInt (x : ℝ) : ℤ :=
  if x - ⌊x⌋ < 1/2 then ⌊x⌋
  else if 1/2 < x - ⌊x⌋ then ⌊x⌋ + 1
  else if Even ⌊x⌋ then ⌊x⌋ else ⌊x⌋ + 1

/-- Python's `round(x, 4)`: round to 4 decimal places, half to even. -/
noncomputable def round4 (x : ℝ) : ℝ := (pyRoundInt (x * 10000) : ℝ) / 10000

/-- The `max(0.0, min(1.0, x))` clamp idiom. -/
noncomputable def clamp01 (x : ℝ) : ℝ := max 0 (min 1 x)

/-! ## Identity tracker (`serve/identity_tracker.py`)

`IdentityTracker._baselines : Dict[str, Dict[int, np.ndarray]]` is modelled
as a function from session ids to optional face-slot maps.  The seed-42
random projection matrix `self._projection` is a parameter `proj`; the cv2
resize / uint8-to-float conversion / flatten preprocessing of
`compute_embedding` is likewise external and enters as the already
flattened pixel vector. -/

/-- Result of `IdentityTracker.compare_to_baseline`. -/
structure CompareResult where
  embeddingShift : ℝ
  samePerson : Bool
  riskLevel : String

/-- The tracker's per-session baseline store. -/
structure TrackerState (d : ℕ) where
  baselines : String → Option (ℕ → Option (Vec d))

/-- Freshly constructed tracker: empty session store. -/
def TrackerState.empty (d : ℕ) : TrackerState d := ⟨fun _ => none⟩

/-- Baseline stored for a `(sessionId, faceSlot)` pair, if any. -/
def lookupBaseline {d : ℕ} (st : TrackerState d) (sid : String) (fid : ℕ) :
    Option (Vec d) :=
  (st.baselines sid).bind fun sess => sess fid

/-- Method `IdentityTracker.compute_embedding`: project the flattened pixel vector
through the fixed random matrix, then L2-normalize (skipped when the norm
is not positive). -/
noncomputable def compute_embedding {d m : ℕ} (proj : Fin d → Fin m → ℝ)
    (flat : Fin m → ℝ) : Vec d :=
  normalizeIfPos (fun i => ∑ j, proj i j * flat j)

/-- Method `IdentityTracker.compare_to_baseline`, returning the result dict and the
updated tracker state. -/
noncomputable def compare_to_baseline {d : ℕ} (st : TrackerState d)
    (session_id : String) (face_id : ℕ) (embedding : Vec d) :
    CompareResult × TrackerState d :=
  -- `if session_id not in self._baselines: self._baselines[session_id] = {}`
  let baselines := (st.baselines session_id).getD (fun _ => none)
  match baselines face_id with
  | none =>
      -- first time seeing this face: store as baseline
      (⟨0.0, true, "low"⟩,
       ⟨Function.update st.baselines session_id
          (some (Function.update baselines face_id (some embedding)))⟩)
  | some baseline =>
      let cosine_sim := dotv baseline embedding
      let shift := clamp01 (1 - cosine_sim)
      let risk := if shift < 0.20 then "low"
                  else if shift < 0.40 then "medium"
                  else "high"
      let same_person := if shift < 0.25 then true else false
      -- EMA update with alpha = 0.1, then re-normalize
      let updated : Vec d := fun i => (1 - 0.1) * baseline i + 0.1 * embedding i
      let newBaseline := normalizeIfPos updated
      (⟨round4 shift, same_person, risk⟩,
       ⟨Function.update st.baselines session_id
          (some (Function.update baselines face_id (some newBaseline)))⟩)

/-- Method `IdentityTracker.clear_session`: drop one session's baselines. -/
def clear_session {d : ℕ} (st : TrackerState d) (session_id : String) :
    TrackerState d :=
  ⟨Function.update st.baselines session_id none⟩

/-- Method `IdentityTracker.clear_all`: drop every session's baselines. -/
def clear_all {d : ℕ} (_st : TrackerState d) : TrackerState d :=
  ⟨fun _ => none⟩

/-! Sequences of tracker mutations, as the pipeline issues them: each
`compare` step first computes the embedding of the (externally flattened)
face crop via `compute_embedding`, then calls `compare_to_baseline`. -/

/-- One mutating tracker operation. -/
inductive TrackerOp (m : ℕ) where
  | compare (sid : String) (fid : ℕ) (flat : Fin m → ℝ)
  | clearSession (sid : String)
  | clearAll

/-- Apply one tracker operation to the state. -/
noncomputable def trackerStep {d m : ℕ} (proj : Fin d → Fin m → ℝ)
    (st : TrackerState d) : TrackerOp m → TrackerState d
  | .compare sid fid flat =>
      (compare_to_baseline st sid fid (compute_embedding proj flat)).2
  | .clearSession sid => clear_session st sid
  | .clearAll => clear_all st

/-- Run a sequence of tracker operations from a state. -/
noncomputable def trackerRun {d m : ℕ} (proj : Fin d → Fin m → ℝ)
    (st : TrackerState d) (ops : List (TrackerOp m)) : TrackerState d :=
  ops.foldl (trackerStep proj) st

/-! ## Configuration (`serve/config.py`) -/

/-- Constant `EMOTION_LABELS`: the 6 canonical emotion labels. -/
def EMOTION_LABELS : List String :=
  ["Happy", "Neutral", "Angry", "Fear", "Surprise", "Sad"]

/-- Constant `FER_TO_LABEL`: FER native label → canonical label (many-to-one). -/
def FER_TO_LABEL : List (String × String) :=
  [("happy", "Happy"), ("neutral", "Neutral"), ("angry", "Angry"),
   ("fear", "Fear"), ("surprise", "Surprise"), ("sad", "Sad"),
   ("disgust", "Angry")]

/-! ## Emotion adapter (`analyze_emotion` in `serve/inference.py`)

A Python `dict` in insertion order is modelled as an association list with
distinct keys; `scores[k] = v` either updates the entry in place or appends
a new one. -/

/-- Python dict lookup on an association list: first entry with the given
key. -/
def alookup {β : Type} : List (String × β) → String → Option β
  | [], _ => none
  | p :: ps, k => if p.1 = k then some p.2 else alookup ps k

/-- Sum of the values of an association list (`sum(scores.values())`). -/
noncomputable def sumVals (l : List (String × ℝ)) : ℝ :=
  (l.map Prod.snd).sum

/-- Assignment `scores[label] = max(scores[label], v)` when present, else
`scores[label] = v` (dict insertion order preserved). -/
noncomputable def updateMax (acc : List (String × ℝ)) (label : String)
    (v : ℝ) : List (String × ℝ) :=
  if (alookup acc label).isSome then
    acc.map (fun p => if p.1 = label then (p.1, max p.2 v) else p)
  else acc ++ [(label, v)]

/-- One iteration of the `for fer_key, value in fer_scores.items()` loop:
remap the FER native label to its canonical label, keeping the maximum on
collision and skipping keys absent from `FER_TO_LABEL`. -/
noncomputable def buildStep (acc : List (String × ℝ)) (kv : String × ℝ) :
    List (String × ℝ) :=
  match alookup FER_TO_LABEL kv.1 with
  | none => acc
  | some l => updateMax acc l kv.2

/-- The whole mapping loop. -/
noncomputable def buildScores (fer_scores : List (String × ℝ)) :
    List (String × ℝ) :=
  fer_scores.foldl buildStep []

/-- The `for label in EMOTION_LABELS: if label not in scores: scores[label]
= 0.0` loop. -/
noncomputable def fillMissing (scores : List (String × ℝ)) :
    List (String × ℝ) :=
  scores ++ (EMOTION_LABELS.filter (fun l => (alookup scores l).isNone)).map
    (fun l => (l, (0 : ℝ)))

/-- Python's `max(scores, key=scores.get)` over a dict in insertion order:
first key attaining the maximal value (with its value). The `[]` case is
unreachable on `analyze_emotion`'s inputs. -/
noncomputable def argmaxEntry : List (String × ℝ) → String × ℝ
  | [] => ("Neutral", 0)
  | p :: ps => ps.foldl (fun best q => if best.2 < q.2 then q else best) p

/-- Result of `analyze_emotion`. -/
structure EmotionResult where
  label : String
  confidence : ℝ
  scores : List (String × ℝ)

/-- The fallback emotion result (`label="Neutral"`, `confidence=0.5`, all
scores 0), returned when FER is unavailable, finds no face, or throws. -/
noncomputable def emotionFallback : EmotionResult :=
  ⟨"Neutral", 0.5, EMOTION_LABELS.map (fun e => (e, (0 : ℝ)))⟩

/-- Core of `analyze_emotion` once FER produced a native score dict:
remap with max-on-collision, fill missing canonical labels with 0,
renormalize (rounding each to 4 decimals) when the total is positive, and
pick the dominant label. -/
noncomputable def emotionFromScores (fer_scores : List (String × ℝ)) :
    EmotionResult :=
  let scores := fillMissing (buildScores fer_scores)
  let total := sumVals scores
  let normed := if 0 < total then
      scores.map (fun p => (p.1, round4 (p.2 / total))) else scores
  let dominant := argmaxEntry normed
  ⟨dominant.1, dominant.2, normed⟩

/-! ## External boundaries of the per-frame pipeline

Decoded frames and face crops are opaque handles: they are only ever passed
to external models (cv2, MediaPipe, MesoNet, FER), which the embedding
takes as oracle functions.  A model invocation that may raise is an
`Except` value. -/

/-- Opaque decoded image handle. -/
abbrev Img : Type := ℕ

/-- Opaque 224×224 face-crop handle. -/
abbrev Crop : Type := ℕ

/-- A detected face as produced by `detect_faces`. -/
structure FaceInfo where
  face_id : ℕ
  bbox : ℕ × ℕ × ℕ × ℕ
  confidence : ℝ
  crop : Crop

/-- The external dependencies of the pipeline: frame decoding, face
detection, the two lazily loaded models (`None` when unavailable, an
exception-throwing function otherwise), and the preprocessing
(BGR→RGB, resize, scale, flatten) plus projection matrix feeding
`compute_embedding`. -/
structure Ext (d m : ℕ) where
  imdecode : String → Option Img
  detect : Img → List FaceInfo
  mesonet : Option (Crop → Except String ℝ)
  fer : Option (Crop → Except String (List (List (String × ℝ))))
  toFlat : Crop → Fin m → ℝ
  proj : Fin d → Fin m → ℝ

/-- Result of `analyze_deepfake`. -/
structure DeepfakeResult where
  authenticityScore : ℝ
  riskLevel : String
  model : String

/-- Adapter `analyze_deepfake`: MesoNet prediction mapped to an authenticity score
and risk tier, with fixed fallbacks when the model is unavailable or
throws. -/
noncomputable def analyze_deepfake {d m : ℕ} (ext : Ext d m) (face_crop : Crop) :
    DeepfakeResult :=
  match ext.mesonet with
  | none => ⟨0.85, "low", "MesoNet-4 (unavailable)"⟩
  | some predict =>
    match predict face_crop with
    | .error _ => ⟨0.85, "low", "MesoNet-4 (error)"⟩
    | .ok prediction =>
        let authenticity := round4 (1.0 - prediction)
        let risk := if authenticity > 0.85 then "low"
                    else if authenticity > 0.70 then "medium"
                    else "high"
        ⟨authenticity, risk, "MesoNet-4"⟩

/-- Adapter `analyze_emotion`: FER invocation with fallbacks (unavailable model,
no face found by FER, or exception), else `emotionFromScores`. -/
noncomputable def analyze_emotion {d m : ℕ} (ext : Ext d m) (face_crop : Crop) :
    EmotionResult :=
  match ext.fer with
  | none => emotionFallback
  | some detect =>
    match detect face_crop with
    | .error _ => emotionFallback
    | .ok emotions =>
      match emotions with
      | [] => emotionFallback
      | e0 :: _ => emotionFromScores e0

/-- Adapter `analyze_identity`: compute the crop's embedding and compare it to the
session baseline.  (The embedding computation in this model is total, so
the `except` fallback branch of the source is unreachable.) -/
noncomputable def analyze_identity {d m : ℕ} (ext : Ext d m)
    (st : TrackerState d) (session_id : String) (face_id : ℕ) (face_crop : Crop) :
    CompareResult × TrackerState d :=
  compare_to_baseline st session_id face_id
    (compute_embedding ext.proj (ext.toFlat face_crop))

/-! ## Frame aggregator (`analyze_frame` in `serve/inference.py`) -/

/-- One per-face entry of the response's `faces` list. -/
structure FaceResult where
  faceId : ℕ
  bbox : ℕ × ℕ × ℕ × ℕ
  confidence : ℝ
  emotion : EmotionResult
  identity : CompareResult
  deepfake : DeepfakeResult

/-- The `confidenceLayers` breakdown. -/
structure ConfidenceLayers where
  audio : ℝ
  video : ℝ
  behavior : ℝ

/-- The `aggregated` view of a frame response. -/
structure Aggregated where
  emotion : EmotionResult
  identity : CompareResult
  deepfake : DeepfakeResult
  trustScore : ℝ
  confidenceLayers : ConfidenceLayers

/-- A full frame response (timestamps omitted). -/
structure FrameResponse where
  sessionId : String
  faces : List FaceResult
  aggregated : Aggregated

/-- Function `_empty_response`: the canonical no-face response. -/
noncomputable def emptyResponse (session_id : String) : FrameResponse :=
  ⟨session_id, [],
   ⟨⟨"Neutral", 0.0, EMOTION_LABELS.map (fun e => (e, (0 : ℝ)))⟩,
    ⟨0.0, true, "low"⟩,
    ⟨1.0, "low", "MesoNet-4"⟩,
    0.95,
    ⟨0.9, 1.0, 0.55⟩⟩⟩

/-- Body of the `for face_info in faces` loop: run the three adapters on
one face and thread the tracker state. -/
noncomputable def processFace {d m : ℕ} (ext : Ext d m) (st : TrackerState d)
    (session_id : String) (face_info : FaceInfo) :
    FaceResult × TrackerState d :=
  let deepfake_result := analyze_deepfake ext face_info.crop
  let emotion_result := analyze_emotion ext face_info.crop
  let idpair := analyze_identity ext st session_id face_info.face_id face_info.crop
  (⟨face_info.face_id, face_info.bbox, face_info.confidence,
    emotion_result, idpair.1, deepfake_result⟩, idpair.2)

/-- The face loop over a whole detection list. -/
noncomputable def processFaces {d m : ℕ} (ext : Ext d m) (st : TrackerState d)
    (session_id : String) :
    List FaceInfo → List FaceResult × TrackerState d
  | [] => ([], st)
  | f :: fs =>
      let pr := processFace ext st session_id f
      let rest := processFaces ext pr.2 session_id fs
      (pr.1 :: rest.1, rest.2)

/-- Function `analyze_frame`: decode, detect, analyze each face, aggregate from the
primary (first) face; returns the response and the updated tracker
state. -/
noncomputable def analyze_frame {d m : ℕ} (ext : Ext d m) (st : TrackerState d)
    (session_id : String) (frame_b64 : String) :
    FrameResponse × TrackerState d :=
  match ext.imdecode frame_b64 with
  | none => (emptyResponse session_id, st)
  | some img =>
    match ext.detect img with
    | [] => (emptyResponse session_id, st)
    | f0 :: fs =>
      let pr0 := processFace ext st session_id f0
      let rest := processFaces ext pr0.2 session_id fs
      let primary := pr0.1
      let auth_score := primary.deepfake.authenticityScore
      let shift := primary.identity.embeddingShift
      let emotion_conf := primary.emotion.confidence
      let audio_conf : ℝ := 0.9
      let video_conf := auth_score
      let behavior_conf := round4 (0.55 + emotion_conf * 0.4)
      let trust_score :=
        clamp01 (round4 ((auth_score + audio_conf + (1 - shift) + behavior_conf) / 4))
      (⟨session_id, primary :: rest.1,
        ⟨primary.emotion, primary.identity, primary.deepfake, trust_score,
         ⟨audio_conf, video_conf, behavior_conf⟩⟩⟩, rest.2)

/-! ## REST endpoint (`analyze_frame_endpoint` in `serve/app.py`) -/

/-- An HTTP error response: status code and detail string. -/
structure HttpError where
  status_code : ℕ
  detail : String

/-- The request body of `POST /api/analyze/frame`.  (A request missing the
`sessionId` or `frameB64` field entirely is rejected by pydantic validation
with status 422 before the handler runs; the handler itself sees strings.) -/
structure AnalyzeFrameRequest where
  sessionId : String
  frameB64 : String

/-- Handler `analyze_frame_endpoint`: reject empty payload / session id with 400,
otherwise run the pipeline. -/
noncomputable def analyze_frame_endpoint {d m : ℕ} (ext : Ext d m)
    (st : TrackerState d) (request : AnalyzeFrameRequest) :
    Except HttpError (FrameResponse × TrackerState d) :=
  if request.frameB64 = "" then .error ⟨400, "frameB64 is required"⟩
  else if request.sessionId = "" then .error ⟨400, "sessionId is required"⟩
  else .ok (analyze_frame ext st request.sessionId request.frameB64)

/-! ## Norm lemmas -/

theorem dotv_self_nonneg {d : ℕ} (v : Vec d) : 0 ≤ dotv v v :=
  Finset.sum_nonneg fun i _ => mul_self_nonneg (v i)

theorem norm2_nonneg {d : ℕ} (v : Vec d) : 0 ≤ norm2 v :=
  Real.sqrt_nonneg _

theorem dotv_self_eq_sq_norm2 {d : ℕ} (v : Vec d) :
    dotv v v = norm2 v * norm2 v :=
  (Real.mul_self_sqrt (dotv_self_nonneg v)).symm

/-- A vector is either exactly unit-norm or degenerate (zero norm, left
unnormalized by the `if norm > 0` guard). -/
def unitOrDegenerate {d : ℕ} (v : Vec d) : Prop :=
  norm2 v = 1 ∨ norm2 v = 0

theorem norm2_eq_one_of_dotv {d : ℕ} {v : Vec d} (h : dotv v v = 1) :
    norm2 v = 1 := by
  unfold norm2
  rw [h, Real.sqrt_one]

theorem normalizeIfPos_unitOrDegenerate {d : ℕ} (v : Vec d) :
    unitOrDegenerate (normalizeIfPos v) := by
  by_cases h : 0 < norm2 v
  · left
    unfold normalizeIfPos
    rw [if_pos h]
    have hdot : dotv (fun i => v i / norm2 v) (fun i => v i / norm2 v)
        = dotv v v / (norm2 v * norm2 v) := by
      unfold dotv
      rw [Finset.sum_div]
      exact Finset.sum_congr rfl fun i _ => by ring
    have h1 : dotv (fun i => v i / norm2 v) (fun i => v i / norm2 v) = 1 := by
      rw [hdot, dotv_self_eq_sq_norm2 v, div_self (mul_pos h h).ne']
    exact norm2_eq_one_of_dotv h1
  · right
    unfold normalizeIfPos
    rw [if_neg h]
    have h0 : norm2 v = 0 := le_antisymm (not_lt.mp h) (norm2_nonneg v)
    exact h0

/-! ## Tracker invariant machinery -/

/-- Every baseline stored in the tracker is unit-norm or degenerate. -/
def goodBaselines {d : ℕ} (st : TrackerState d) : Prop :=
  ∀ sid fid b, lookupBaseline st sid fid = some b → unitOrDegenerate b

theorem goodBaselines_empty {d : ℕ} : goodBaselines (TrackerState.empty d) := by
  intro sid fid b hb
  simp [TrackerState.empty, lookupBaseline] at hb

theorem goodBaselines_update {d : ℕ} {st : TrackerState d}
    (hst : goodBaselines st) (sid : String) (fid : ℕ) {w : Vec d}
    (hw : unitOrDegenerate w) :
    goodBaselines ⟨Function.update st.baselines sid
      (some (Function.update ((st.baselines sid).getD (fun _ => none)) fid
        (some w)))⟩ := by
  intro sid' fid' b hb
  unfold lookupBaseline at hb
  simp only [Function.update_apply] at hb
  by_cases hs : sid' = sid
  · rw [if_pos hs] at hb
    simp only [Option.some_bind] at hb
    rw [Function.update_apply] at hb
    by_cases hf : fid' = fid
    · rw [if_pos hf] at hb
      cases hb
      exact hw
    · rw [if_neg hf] at hb
      apply hst sid fid' b
      unfold lookupBaseline
      cases hc : st.baselines sid with
      | none =>
        rw [hc] at hb
        exact absurd hb (by simp [Option.getD])
      | some sess =>
        rw [hc] at hb
        simpa [Option.getD] using hb
  · rw [if_neg hs] at hb
    exact hst sid' fid' b hb

theorem compare_preserves_good {d : ℕ} {st : TrackerState d}
    (hst : goodBaselines st) (sid : String) (fid : ℕ) {e : Vec d}
    (he : unitOrDegenerate e) :
    goodBaselines (compare_to_baseline st sid fid e).2 := by
  unfold compare_to_baseline
  cases hm : ((st.baselines sid).getD (fun _ => none)) fid with
  | none =>
    simp only [hm]
    exact goodBaselines_update hst sid fid he
  | some baseline =>
    simp only [hm]
    exact goodBaselines_update hst sid fid (normalizeIfPos_unitOrDegenerate _)

theorem clear_session_preserves_good {d : ℕ} {st : TrackerState d}
    (hst : goodBaselines st) (sid : String) :
    goodBaselines (clear_session st sid) := by
  intro sid' fid' b hb
  unfold clear_session lookupBaseline at hb
  simp only [Function.update_apply] at hb
  by_cases hs : sid' = sid
  · rw [if_pos hs] at hb
    exact absurd hb (by simp)
  · rw [if_neg hs] at hb
    exact hst sid' fid' b hb

theorem clear_all_good {d : ℕ} (st : TrackerState d) :
    goodBaselines (clear_all st) := by
  intro sid fid b hb
  simp [clear_all, lookupBaseline] at hb

theorem trackerStep_preserves_good {d m : ℕ} (proj : Fin d → Fin m → ℝ)
    {st : TrackerState d} (hst : goodBaselines st) (op : TrackerOp m) :
    goodBaselines (trackerStep proj st op) := by
  cases op with
  | compare sid fid flat =>
    exact compare_preserves_good hst sid fid
      (normalizeIfPos_unitOrDegenerate _)
  | clearSession sid => exact clear_session_preserves_good hst sid
  | clearAll => exact clear_all_good st

/-- C4: For every sequence of tracker operations and every stored Identity
Baseline vector: after every mutation of that baseline — its creation on
first sighting and every subsequent EMA update — the baseline has L2 norm
equal to 1, except when the computed vector has zero norm, in which case
normalization was skipped and the stored vector has zero norm. -/
theorem trackerRun_baselines_unit_or_degenerate {d m : ℕ}
    (proj : Fin d → Fin m → ℝ) (ops : List (TrackerOp m)) :
    goodBaselines (trackerRun proj (TrackerState.empty d) ops) := by
  suffices h : ∀ st : TrackerState d, goodBaselines st →
      goodBaselines (trackerRun proj st ops) from
    h _ goodBaselines_empty
  induction ops with
  | nil => exact fun st h => h
  | cons op ops ih =>
    intro st h
    exact ih _ (trackerStep_preserves_good proj h op)

/-! ## C1: first sighting -/

/-- C1: For every session id, face slot and embedding vector: if no
baseline is stored for that pair, `compare_to_baseline` stores the
embedding verbatim as the new baseline and returns embeddingShift = 0.0,
samePerson = true, riskLevel = "low", regardless of the content of the
embedding. -/
theorem compare_first_sighting_trusted {d : ℕ} (st : TrackerState d)
    (sid : String) (fid : ℕ) (e : Vec d)
    (h : lookupBaseline st sid fid = none) :
    (compare_to_baseline st sid fid e).1.embeddingShift = 0.0 ∧
    (compare_to_baseline st sid fid e).1.samePerson = true ∧
    (compare_to_baseline st sid fid e).1.riskLevel = "low" ∧
    lookupBaseline (compare_to_baseline st sid fid e).2 sid fid = some e := by
  have hsess : ((st.baselines sid).getD (fun _ => none)) fid = none := by
    cases hb : st.baselines sid with
    | none => rfl
    | some sess =>
      unfold lookupBaseline at h
      rw [hb] at h
      simpa using h
  unfold compare_to_baseline
  simp only [hsess]
  refine ⟨trivial, trivial, trivial, ?_⟩
  unfold lookupBaseline
  simp [Function.update_same]

/-- Witness for C1 at a concrete input: the empty tracker, session "s",
slot 0 and the constant-5 embedding in dimension 2. -/
theorem compare_first_sighting_trusted_witness :
    lookupBaseline (TrackerState.empty 2) "s" 0 = none ∧
    ((compare_to_baseline (TrackerState.empty 2) "s" 0 (fun _ => 5)).1.embeddingShift = 0.0 ∧
     (compare_to_baseline (TrackerState.empty 2) "s" 0 (fun _ => 5)).1.samePerson = true ∧
     (compare_to_baseline (TrackerState.empty 2) "s" 0 (fun _ => 5)).1.riskLevel = "low" ∧
     lookupBaseline (compare_to_baseline (TrackerState.empty 2) "s" 0 (fun _ => 5)).2 "s" 0
       = some (fun _ => 5)) :=
  ⟨rfl, compare_first_sighting_trusted (TrackerState.empty 2) "s" 0 (fun _ => 5) rfl⟩

/-! ## C3: EMA baseline update -/

/-- C3: For every non-first call `compare_to_baseline s f E` with stored
baseline `B`, after the comparison the stored baseline for `(s, f)` becomes
`0.9 * B + 0.1 * E` re-normalized to unit L2 length (normalization skipped
when the resulting norm is zero); unconditionally — in particular also on
calls whose result is samePerson = false or riskLevel = "high". -/
theorem compare_updates_baseline_ema {d : ℕ} (st : TrackerState d)
    (sid : String) (fid : ℕ) (B E : Vec d)
    (h : lookupBaseline st sid fid = some B) :
    lookupBaseline (compare_to_baseline st sid fid E).2 sid fid
      = some (normalizeIfPos (fun i => 0.9 * B i + 0.1 * E i)) := by
  unfold lookupBaseline at h
  cases hc : st.baselines sid with
  | none =>
    rw [hc] at h
    simp at h
  | some sess =>
    rw [hc] at h
    simp only [Option.some_bind] at h
    have hsd : ((st.baselines sid).getD (fun _ => none)) = sess := by
      rw [hc]
      rfl
    unfold compare_to_baseline
    simp only [hsd, h]
    unfold lookupBaseline
    simp only [Function.update_same, Option.some_bind]
    have : (fun i => (1 - 0.1) * B i + 0.1 * E i)
        = (fun i => (0.9 : ℝ) * B i + 0.1 * E i) := by
      funext i
      norm_num
    rw [this]

/-- Witness for C3 at a concrete input: the baseline stored for
("s", 0) is the constant-5 vector; comparing against the constant-3 vector
leaves `normalizeIfPos (0.9·5 + 0.1·3)` stored. -/
theorem compare_updates_baseline_ema_witness :
    lookupBaseline
      (⟨Function.update (fun _ => none) "s"
        (some (Function.update (fun _ => none) 0 (some (fun _ => (5 : ℝ)))))⟩ :
        TrackerState 2) "s" 0 = some (fun _ => (5 : ℝ)) ∧
    lookupBaseline
      (compare_to_baseline
        (⟨Function.update (fun _ => none) "s"
          (some (Function.update (fun _ => none) 0 (some (fun _ => (5 : ℝ)))))⟩ :
          TrackerState 2) "s" 0 (fun _ => (3 : ℝ))).2 "s" 0
      = some (normalizeIfPos (fun i => 0.9 * (fun _ => (5 : ℝ)) i
          + 0.1 * (fun _ => (3 : ℝ)) i)) :=
  ⟨by simp [lookupBaseline, Function.update_same],
   compare_updates_baseline_ema _ "s" 0 (fun _ => (5 : ℝ)) (fun _ => (3 : ℝ))
     (by simp [lookupBaseline, Function.update_same])⟩

/-! ## C2: non-first comparison -/

/-- Reduction of `compare_to_baseline` when a baseline is stored. -/
theorem compare_result_some {d : ℕ} (st : TrackerState d) (sid : String)
    (fid : ℕ) (B E : Vec d) (h : lookupBaseline st sid fid = some B) :
    (compare_to_baseline st sid fid E).1 =
      ⟨round4 (clamp01 (1 - dotv B E)),
       if clamp01 (1 - dotv B E) < 0.25 then true else false,
       if clamp01 (1 - dotv B E) < 0.20 then "low"
       else if clamp01 (1 - dotv B E) < 0.40 then "medium" else "high"⟩ := by
  unfold lookupBaseline at h
  cases hc : st.baselines sid with
  | none =>
    rw [hc] at h
    simp at h
  | some sess =>
    rw [hc] at h
    simp only [Option.some_bind] at h
    have hsd : ((st.baselines sid).getD (fun _ => none)) = sess := by
      rw [hc]
      rfl
    unfold compare_to_baseline
    simp only [hsd, h]

/-- The claim's characterization of a non-first comparison, amended only in
that the returned `embeddingShift` is the clamped cosine distance rounded
to 4 decimal places (Python `round(shift, 4)`), while risk tier and
`samePerson` are derived from the unrounded shift. -/
def compareSpecAmended (shift : ℝ) (r : CompareResult) : Prop :=
  r.embeddingShift = round4 shift ∧
  (r.riskLevel = "low" ↔ shift < 0.20) ∧
  (r.riskLevel = "medium" ↔ 0.20 ≤ shift ∧ shift < 0.40) ∧
  (r.riskLevel = "high" ↔ 0.40 ≤ shift) ∧
  (r.samePerson = true ↔ shift < 0.25)

/-- C2 (amended): For every non-first call with stored baseline `B` and
embedding `E`, with `shift = clamp(1 - dot(B, E), 0, 1)`: the returned
embeddingShift is `shift` rounded to 4 decimals; riskLevel is "low" iff
`shift < 0.20`, "medium" iff `0.20 ≤ shift < 0.40`, else "high";
samePerson iff `shift < 0.25`; in particular every shift in `[0.20, 0.25)`
yields samePerson = true together with riskLevel = "medium". -/
theorem compare_nonfirst_characterization {d : ℕ} (st : TrackerState d)
    (sid : String) (fid : ℕ) (B E : Vec d)
    (h : lookupBaseline st sid fid = some B) :
    compareSpecAmended (clamp01 (1 - dotv B E))
      (compare_to_baseline st sid fid E).1 ∧
    (0.20 ≤ clamp01 (1 - dotv B E) → clamp01 (1 - dotv B E) < 0.25 →
      (compare_to_baseline st sid fid E).1.samePerson = true ∧
      (compare_to_baseline st sid fid E).1.riskLevel = "medium") := by
  rw [compare_result_some st sid fid B E h]
  unfold compareSpecAmended
  set s := clamp01 (1 - dotv B E) with hs
  constructor
  · refine ⟨rfl, ?_, ?_, ?_, ?_⟩
    · by_cases h1 : s < 0.20
      · simp [if_pos h1, h1]
      · rw [if_neg h1]
        by_cases h2 : s < 0.40
        · rw [if_pos h2]
          simp [h1]
        · rw [if_neg h2]
          simp [h1]
    · by_cases h1 : s < 0.20
      · rw [if_pos h1]
        constructor
        · intro hfalse
          exact absurd hfalse (by simp)
        · rintro ⟨h20, -⟩
          exact absurd h1 (not_lt.mpr h20)
      · rw [if_neg h1]
        by_cases h2 : s < 0.40
        · rw [if_pos h2]
          simp [not_lt.mp h1, h2]
        · rw [if_neg h2]
          constructor
          · intro hfalse
            exact absurd hfalse (by simp)
          · rintro ⟨-, h40⟩
            exact absurd h40 h2
    · by_cases h1 : s < 0.20
      · rw [if_pos h1]
        constructor
        · intro hfalse
          exact absurd hfalse (by simp)
        · intro h40
          linarith
      · rw [if_neg h1]
        by_cases h2 : s < 0.40
        · rw [if_pos h2]
          constructor
          · intro hfalse
            exact absurd hfalse (by simp)
          · intro h40
            linarith
        · rw [if_neg h2]
          simp [not_lt.mp h2]
    · by_cases h3 : s < 0.25
      · simp [if_pos h3, h3]
      · simp [if_neg h3, h3]
  · intro h20 h25
    have h1 : ¬ s < 0.20 := not_lt.mpr h20
    have h2 : s < 0.40 := by linarith
    refine ⟨?_, ?_⟩
    · simp [if_pos h25]
    · rw [if_neg h1, if_pos h2]

/-- Witness for the amended C2 at a concrete input: baseline constant 1 in
dimension 1, compared against the zero vector. -/
theorem compare_nonfirst_characterization_witness :
    lookupBaseline
      (⟨Function.update (fun _ => none) "s"
        (some (Function.update (fun _ => none) 0 (some (fun _ => (1 : ℝ)))))⟩ :
        TrackerState 1) "s" 0 = some (fun _ => (1 : ℝ)) ∧
    (compareSpecAmended (clamp01 (1 - dotv (fun _ => (1 : ℝ) : Vec 1) (fun _ => (0 : ℝ) : Vec 1)))
      (compare_to_baseline
        (⟨Function.update (fun _ => none) "s"
          (some (Function.update (fun _ => none) 0 (some (fun _ => (1 : ℝ)))))⟩ :
          TrackerState 1) "s" 0 (fun _ => (0 : ℝ))).1 ∧
     (0.20 ≤ clamp01 (1 - dotv (fun _ => (1 : ℝ) : Vec 1) (fun _ => (0 : ℝ) : Vec 1)) →
      clamp01 (1 - dotv (fun _ => (1 : ℝ) : Vec 1) (fun _ => (0 : ℝ) : Vec 1)) < 0.25 →
      (compare_to_baseline
        (⟨Function.update (fun _ => none) "s"
          (some (Function.update (fun _ => none) 0 (some (fun _ => (1 : ℝ)))))⟩ :
          TrackerState 1) "s" 0 (fun _ => (0 : ℝ))).1.samePerson = true ∧
      (compare_to_baseline
        (⟨Function.update (fun _ => none) "s"
          (some (Function.update (fun _ => none) 0 (some (fun _ => (1 : ℝ)))))⟩ :
          TrackerState 1) "s" 0 (fun _ => (0 : ℝ))).1.riskLevel = "medium")) :=
  ⟨by simp [lookupBaseline, Function.update_same],
   compare_nonfirst_characterization _ "s" 0 (fun _ => (1 : ℝ)) (fun _ => (0 : ℝ))
     (by simp [lookupBaseline, Function.update_same])⟩

/-- Counterexample to C2 as literally stated: with the unit baseline
`(3/5, 4/5)` stored and the unit embedding `(5/13, 12/13)` compared against
it, the cosine distance is `2/65 = 0.030769…`, but the returned
embeddingShift is the rounded `0.0308` — not equal to
`clamp(1 - cosineSimilarity, 0, 1)`. -/
theorem compare_shift_not_unrounded_clamp :
    (compare_to_baseline
      (⟨Function.update (fun _ => none) "s"
        (some (Function.update (fun _ => none) 0 (some ![(3 : ℝ)/5, 4/5])))⟩ :
        TrackerState 2) "s" 0 ![(5 : ℝ)/13, 12/13]).1.embeddingShift
      ≠ clamp01 (1 - dotv ![(3 : ℝ)/5, 4/5] ![(5 : ℝ)/13, 12/13]) := by
  have hl : lookupBaseline
      (⟨Function.update (fun _ => none) "s"
        (some (Function.update (fun _ => none) 0 (some ![(3 : ℝ)/5, 4/5])))⟩ :
        TrackerState 2) "s" 0 = some ![(3 : ℝ)/5, 4/5] := by
    simp [lookupBaseline, Function.update_same]
  rw [compare_result_some _ "s" 0 _ _ hl]
  dsimp only
  have hdot : dotv ![(3 : ℝ)/5, 4/5] ![(5 : ℝ)/13, 12/13] = 63/65 := by
    simp [dotv, Fin.sum_univ_two]
    norm_num
  rw [hdot]
  have hcl : clamp01 (1 - (63/65 : ℝ)) = 2/65 := by
    unfold clamp01
    rw [min_eq_right (by norm_num), max_eq_right (by norm_num)]
    norm_num
  rw [hcl]
  have hfl : (⌊(2/65 : ℝ) * 10000⌋ : ℤ) = 307 := by
    apply Int.floor_eq_iff.mpr
    constructor <;> norm_num
  have hrnd : pyRoundInt ((2/65 : ℝ) * 10000) = 308 := by
    unfold pyRoundInt
    rw [hfl]
    rw [if_neg (by push_cast; norm_num), if_pos (by push_cast; norm_num)]
    norm_num
  unfold round4
  rw [hrnd]
  norm_num

/-! ## C8: deepfake adapter fallbacks -/

/-- C8: The deepfake adapter never propagates a model failure to its
caller: when the MesoNet model is unavailable it returns authenticityScore
0.85, riskLevel "low" and the "(unavailable)" tag, and when the model's
invocation throws it returns authenticityScore 0.85, riskLevel "low" and
the "(error)" tag. -/
theorem analyze_deepfake_never_raises {d m : ℕ} (ext : Ext d m) (crop : Crop) :
    (ext.mesonet = none →
      analyze_deepfake ext crop
        = ⟨0.85, "low", "MesoNet-4 (unavailable)"⟩) ∧
    (∀ predict msg, ext.mesonet = some predict → predict crop = .error msg →
      analyze_deepfake ext crop = ⟨0.85, "low", "MesoNet-4 (error)"⟩) := by
  constructor
  · intro h
    unfold analyze_deepfake
    rw [h]
  · intro predict msg hp he
    unfold analyze_deepfake
    rw [hp]
    dsimp only
    rw [he]

/-- An `Ext` bundle with every external model unavailable and decoding
always failing. -/
noncomputable def extAllOff : Ext 1 1 :=
  ⟨fun _ => none, fun _ => [], none, none, fun _ _ => 0, fun _ _ => 0⟩

/-- An `Ext` bundle whose MesoNet invocation always throws. -/
noncomputable def extMesoThrows : Ext 1 1 :=
  ⟨fun _ => some 0, fun _ => [], some (fun _ => .error "boom"), none,
   fun _ _ => 0, fun _ _ => 0⟩

/-- Witness for C8: both fallback branches at concrete inputs. -/
theorem analyze_deepfake_never_raises_witness :
    analyze_deepfake extAllOff 0 = ⟨0.85, "low", "MesoNet-4 (unavailable)"⟩ ∧
    analyze_deepfake extMesoThrows 0 = ⟨0.85, "low", "MesoNet-4 (error)"⟩ :=
  ⟨(analyze_deepfake_never_raises extAllOff 0).1 rfl,
   (analyze_deepfake_never_raises extMesoThrows 0).2 _ "boom" rfl rfl⟩

/-! ## C6 and C10: no-face frames -/

/-- The field values the claim requires of the canonical no-face
response. -/
def canonicalNoFace (r : FrameResponse) : Prop :=
  r.aggregated.trustScore = 0.95 ∧
  r.faces = [] ∧
  r.aggregated.deepfake.authenticityScore = 1.0 ∧
  r.aggregated.deepfake.riskLevel = "low" ∧
  r.aggregated.identity.embeddingShift = 0 ∧
  r.aggregated.identity.riskLevel = "low" ∧
  r.aggregated.identity.samePerson = true ∧
  r.aggregated.emotion.label = "Neutral" ∧
  r.aggregated.emotion.confidence = 0 ∧
  r.aggregated.confidenceLayers.audio = 0.9 ∧
  r.aggregated.confidenceLayers.video = 1.0 ∧
  r.aggregated.confidenceLayers.behavior = 0.55

/-- Reduction of `analyze_frame` on frames that fail to decode or contain
no detected face. -/
theorem analyze_frame_no_face_eq {d m : ℕ} (ext : Ext d m)
    (st : TrackerState d) (sid frame : String)
    (h : ∀ img, ext.imdecode frame = some img → ext.detect img = []) :
    analyze_frame ext st sid frame = (emptyResponse sid, st) := by
  unfold analyze_frame
  cases himg : ext.imdecode frame with
  | none => rfl
  | some img =>
    dsimp only
    rw [h img himg]

/-- C6: For every frame on which decoding fails or no faces are detected,
`analyze_frame` returns the canonical no-face response and does not error:
trust score exactly 0.95, empty faces list, deepfake authenticity 1.0/"low",
identity shift 0/"low"/samePerson true, emotion "Neutral" with confidence
0, and confidence layers audio 0.9, video 1.0, behavior 0.55. -/
theorem analyze_frame_no_face_canonical {d m : ℕ} (ext : Ext d m)
    (st : TrackerState d) (sid frame : String)
    (h : ∀ img, ext.imdecode frame = some img → ext.detect img = []) :
    canonicalNoFace (analyze_frame ext st sid frame).1 := by
  rw [analyze_frame_no_face_eq ext st sid frame h]
  unfold canonicalNoFace emptyResponse
  refine ⟨rfl, rfl, rfl, rfl, by norm_num, rfl, rfl, rfl, by norm_num, rfl, rfl, rfl⟩

/-- Witness for C6 at a concrete input: decoding always fails. -/
theorem analyze_frame_no_face_canonical_witness :
    (∀ img : Img, extAllOff.imdecode "frame" = some img →
      extAllOff.detect img = []) ∧
    canonicalNoFace (analyze_frame extAllOff (TrackerState.empty 1) "s" "frame").1 :=
  ⟨fun _ h => Option.noConfusion h,
   analyze_frame_no_face_canonical extAllOff (TrackerState.empty 1) "s" "frame"
     (fun _ h => Option.noConfusion h)⟩

/-- C10: For every session id and every frame on which decoding fails or no
faces are detected, `analyze_frame` leaves the identity tracker's session
store completely unchanged. -/
theorem analyze_frame_no_face_state_unchanged {d m : ℕ} (ext : Ext d m)
    (st : TrackerState d) (sid frame : String)
    (h : ∀ img, ext.imdecode frame = some img → ext.detect img = []) :
    (analyze_frame ext st sid frame).2 = st := by
  rw [analyze_frame_no_face_eq ext st sid frame h]

/-- Witness for C10 at a concrete input: decoding always fails and the
tracker state comes back unchanged. -/
theorem analyze_frame_no_face_state_unchanged_witness :
    (∀ img : Img, extAllOff.imdecode "frame" = some img →
      extAllOff.detect img = []) ∧
    (analyze_frame extAllOff (TrackerState.empty 1) "s" "frame").2
      = TrackerState.empty 1 :=
  ⟨fun _ h => Option.noConfusion h,
   analyze_frame_no_face_state_unchanged extAllOff (TrackerState.empty 1) "s" "frame"
     (fun _ h => Option.noConfusion h)⟩

/-! ## C9: input-error handling at the endpoint -/

/-- C9 (amended): an empty image payload or an empty session id is rejected
with a 400 error, but a malformed (undecodable) non-empty payload is not
rejected: it produces the canonical no-face response. -/
theorem endpoint_input_error_handling {d m : ℕ} (ext : Ext d m)
    (st : TrackerState d) (request : AnalyzeFrameRequest) :
    (request.frameB64 = "" →
      analyze_frame_endpoint ext st request
        = .error ⟨400, "frameB64 is required"⟩) ∧
    (request.frameB64 ≠ "" → request.sessionId = "" →
      analyze_frame_endpoint ext st request
        = .error ⟨400, "sessionId is required"⟩) ∧
    (request.frameB64 ≠ "" → request.sessionId ≠ "" →
      ext.imdecode request.frameB64 = none →
      analyze_frame_endpoint ext st request
        = .ok (emptyResponse request.sessionId, st)) := by
  refine ⟨?_, ?_, ?_⟩
  · intro h
    unfold analyze_frame_endpoint
    rw [if_pos h]
  · intro h1 h2
    unfold analyze_frame_endpoint
    rw [if_neg h1, if_pos h2]
  · intro h1 h2 hdec
    unfold analyze_frame_endpoint
    rw [if_neg h1, if_neg h2]
    rw [analyze_frame_no_face_eq ext st request.sessionId request.frameB64
      (fun img himg => by rw [hdec] at himg; exact Option.noConfusion himg)]

/-- Witness for the amended C9 at concrete inputs. -/
theorem endpoint_input_error_handling_witness :
    analyze_frame_endpoint extAllOff (TrackerState.empty 1) ⟨"s", ""⟩
      = .error ⟨400, "frameB64 is required"⟩ ∧
    analyze_frame_endpoint extAllOff (TrackerState.empty 1) ⟨"", "x"⟩
      = .error ⟨400, "sessionId is required"⟩ ∧
    analyze_frame_endpoint extAllOff (TrackerState.empty 1) ⟨"s", "x"⟩
      = .ok (emptyResponse "s", TrackerState.empty 1) :=
  ⟨(endpoint_input_error_handling extAllOff (TrackerState.empty 1) ⟨"s", ""⟩).1 rfl,
   (endpoint_input_error_handling extAllOff (TrackerState.empty 1) ⟨"", "x"⟩).2.1
     (by simp) rfl,
   (endpoint_input_error_handling extAllOff (TrackerState.empty 1) ⟨"s", "x"⟩).2.2
     (by simp) (by simp) rfl⟩

/-- Counterexample to C9 as literally stated: a request with a non-empty
but malformed (undecodable) image payload and a valid session id is not
rejected — the endpoint returns a normal analysis response (the canonical
no-face response). -/
theorem endpoint_malformed_payload_not_rejected :
    analyze_frame_endpoint extAllOff (TrackerState.empty 1)
      ⟨"s", "%%%not-a-jpeg%%%"⟩
      = .ok (emptyResponse "s", TrackerState.empty 1) := by
  unfold analyze_frame_endpoint
  rw [if_neg (by simp), if_neg (by simp)]
  rw [analyze_frame_no_face_eq extAllOff (TrackerState.empty 1) "s" "%%%not-a-jpeg%%%"
    (fun _ h => Option.noConfusion h)]

/-! ## C5: trust-score aggregation -/

/-- Evaluation of `round4` when the scaled argument lies in the
lower half-interval of an integer (covers exact 4-decimal values). -/
theorem round4_eval_down (x : ℝ) (n : ℤ) (h1 : (n : ℝ) ≤ x * 10000)
    (h2 : x * 10000 < (n : ℝ) + 1/2) : round4 x = (n : ℝ) / 10000 := by
  have hf : ⌊x * 10000⌋ = n := Int.floor_eq_iff.mpr ⟨h1, by linarith⟩
  unfold round4 pyRoundInt
  rw [hf, if_pos (by linarith)]

/-- Reduction of `analyze_frame` on frames that decode and contain at
least one detected face. -/
theorem analyze_frame_face_reduce {d m : ℕ} (ext : Ext d m)
    (st : TrackerState d) (sid frame : String) (img : Img) (f0 : FaceInfo)
    (fs : List FaceInfo) (h1 : ext.imdecode frame = some img)
    (h2 : ext.detect img = f0 :: fs) :
    (analyze_frame ext st sid frame).1 =
      ⟨sid,
       (processFace ext st sid f0).1
         :: (processFaces ext (processFace ext st sid f0).2 sid fs).1,
       ⟨(processFace ext st sid f0).1.emotion,
        (processFace ext st sid f0).1.identity,
        (processFace ext st sid f0).1.deepfake,
        clamp01 (round4
          (((processFace ext st sid f0).1.deepfake.authenticityScore + 0.9
            + (1 - (processFace ext st sid f0).1.identity.embeddingShift)
            + round4 (0.55
                + (processFace ext st sid f0).1.emotion.confidence * 0.4)) / 4)),
        ⟨0.9, (processFace ext st sid f0).1.deepfake.authenticityScore,
         round4 (0.55
           + (processFace ext st sid f0).1.emotion.confidence * 0.4)⟩⟩⟩ := by
  unfold analyze_frame
  rw [h1]
  dsimp only
  rw [h2]

/-- C5 (amended): For every frame that decodes and yields at least one
detected face, the aggregated trust score equals
`clamp(round4((authenticityScore + 0.9 + (1 - embeddingShift) +
round4(0.55 + 0.4·emotionConfidence)) / 4), 0, 1)`, computed from the
primary (first) face only — the literal claim holds only without the two
4-decimal roundings; the notable instance authenticityScore = 1.0,
embeddingShift = 0.0, emotionConfidence = 1.0 ⟹ trust = 0.9625 is
unaffected. -/
theorem analyze_frame_trust_formula {d m : ℕ} (ext : Ext d m)
    (st : TrackerState d) (sid frame : String) (img : Img) (f0 : FaceInfo)
    (fs : List FaceInfo) (h1 : ext.imdecode frame = some img)
    (h2 : ext.detect img = f0 :: fs) :
    (analyze_frame ext st sid frame).1.aggregated.trustScore
      = clamp01 (round4
          (((processFace ext st sid f0).1.deepfake.authenticityScore + 0.9
            + (1 - (processFace ext st sid f0).1.identity.embeddingShift)
            + round4 (0.55
                + (processFace ext st sid f0).1.emotion.confidence * 0.4)) / 4)) ∧
    ((processFace ext st sid f0).1.deepfake.authenticityScore = 1.0 →
     (processFace ext st sid f0).1.identity.embeddingShift = 0.0 →
     (processFace ext st sid f0).1.emotion.confidence = 1.0 →
     (analyze_frame ext st sid frame).1.aggregated.trustScore = 0.9625) := by
  have hred := analyze_frame_face_reduce ext st sid frame img f0 fs h1 h2
  constructor
  · rw [hred]
  · intro ha hs hc
    rw [hred]
    dsimp only
    rw [ha, hs, hc]
    have e1 : round4 (0.55 + 1.0 * 0.4) = (0.95 : ℝ) := by
      rw [round4_eval_down (0.55 + 1.0 * 0.4) 9500 (by norm_num) (by norm_num)]
      norm_num
    rw [e1]
    have e2 : round4 ((1.0 + 0.9 + (1 - 0.0) + 0.95) / 4) = (0.9625 : ℝ) := by
      rw [round4_eval_down ((1.0 + 0.9 + (1 - 0.0) + 0.95) / 4) 9625
        (by norm_num) (by norm_num)]
      norm_num
    rw [e2]
    unfold clamp01
    rw [min_eq_right (by norm_num), max_eq_right (by norm_num)]

/-- An `Ext` bundle that decodes every frame, detects exactly one face,
whose MesoNet predicts fake-probability 0.9999, and whose FER is
unavailable. -/
noncomputable def extOneFace : Ext 1 1 :=
  ⟨fun _ => some 0, fun _ => [⟨0, (0, 0, 0, 0), 1, 0⟩],
   some (fun _ => .ok 0.9999), none, fun _ _ => 0, fun _ _ => 0⟩

/-- Witness for the amended C5 at a concrete input. -/
theorem analyze_frame_trust_formula_witness :
    extOneFace.imdecode "f" = some 0 ∧
    extOneFace.detect 0 = [⟨0, (0, 0, 0, 0), 1, 0⟩] ∧
    ((analyze_frame extOneFace (TrackerState.empty 1) "s" "f").1.aggregated.trustScore
      = clamp01 (round4
          (((processFace extOneFace (TrackerState.empty 1) "s"
              ⟨0, (0, 0, 0, 0), 1, 0⟩).1.deepfake.authenticityScore + 0.9
            + (1 - (processFace extOneFace (TrackerState.empty 1) "s"
                ⟨0, (0, 0, 0, 0), 1, 0⟩).1.identity.embeddingShift)
            + round4 (0.55
                + (processFace extOneFace (TrackerState.empty 1) "s"
                    ⟨0, (0, 0, 0, 0), 1, 0⟩).1.emotion.confidence * 0.4)) / 4)) ∧
     ((processFace extOneFace (TrackerState.empty 1) "s"
         ⟨0, (0, 0, 0, 0), 1, 0⟩).1.deepfake.authenticityScore = 1.0 →
      (processFace extOneFace (TrackerState.empty 1) "s"
         ⟨0, (0, 0, 0, 0), 1, 0⟩).1.identity.embeddingShift = 0.0 →
      (processFace extOneFace (TrackerState.empty 1) "s"
         ⟨0, (0, 0, 0, 0), 1, 0⟩).1.emotion.confidence = 1.0 →
      (analyze_frame extOneFace (TrackerState.empty 1) "s" "f").1.aggregated.trustScore
        = 0.9625)) :=
  ⟨rfl, rfl,
   analyze_frame_trust_formula extOneFace (TrackerState.empty 1) "s" "f" 0
     ⟨0, (0, 0, 0, 0), 1, 0⟩ [] rfl rfl⟩

/-- Counterexample to C5 as literally stated: with one detected face whose
MesoNet fake-probability is 0.9999 (authenticityScore 0.0001), first
sighting (embeddingShift 0) and unavailable FER (emotionConfidence 0.5),
the code's trust score is round4(0.662525) = 0.6625, while the claim's
unrounded formula gives 0.662525. -/
theorem analyze_frame_trust_not_unrounded :
    (analyze_frame extOneFace (TrackerState.empty 1) "s" "f").1.aggregated.trustScore
      ≠ clamp01
          (((analyze_frame extOneFace (TrackerState.empty 1)
              "s" "f").1.aggregated.deepfake.authenticityScore + 0.9
            + (1 - (analyze_frame extOneFace (TrackerState.empty 1)
                "s" "f").1.aggregated.identity.embeddingShift)
            + (0.55 + 0.4 * (analyze_frame extOneFace (TrackerState.empty 1)
                "s" "f").1.aggregated.emotion.confidence)) / 4) := by
  have hdf : analyze_deepfake extOneFace 0 = ⟨0.0001, "high", "MesoNet-4"⟩ := by
    unfold analyze_deepfake extOneFace
    dsimp only
    have hr : round4 (1.0 - 0.9999) = (0.0001 : ℝ) := by
      rw [round4_eval_down (1.0 - 0.9999) 1 (by norm_num) (by norm_num)]
      norm_num
    rw [hr, if_neg (by norm_num), if_neg (by norm_num)]
  have hem : analyze_emotion extOneFace 0 = emotionFallback := rfl
  have hid : (analyze_identity extOneFace (TrackerState.empty 1) "s" 0 0).1
      = ⟨0.0, true, "low"⟩ := rfl
  have hpf : (processFace extOneFace (TrackerState.empty 1) "s"
      ⟨0, (0, 0, 0, 0), 1, 0⟩).1
      = ⟨0, (0, 0, 0, 0), 1, emotionFallback, ⟨0.0, true, "low"⟩,
         ⟨0.0001, "high", "MesoNet-4"⟩⟩ := by
    unfold processFace
    dsimp only
    rw [hdf, hem, hid]
  rw [analyze_frame_face_reduce extOneFace (TrackerState.empty 1) "s" "f" 0
    ⟨0, (0, 0, 0, 0), 1, 0⟩ [] rfl rfl]
  dsimp only
  rw [hpf]
  dsimp only
  show clamp01 (round4 ((0.0001 + 0.9 + (1 - 0.0)
      + round4 (0.55 + emotionFallback.confidence * 0.4)) / 4))
    ≠ clamp01 ((0.0001 + 0.9 + (1 - 0.0)
      + (0.55 + 0.4 * emotionFallback.confidence)) / 4)
  have hconf : emotionFallback.confidence = (0.5 : ℝ) := rfl
  rw [hconf]
  have e1 : round4 (0.55 + 0.5 * 0.4) = (0.75 : ℝ) := by
    rw [round4_eval_down (0.55 + 0.5 * 0.4) 7500 (by norm_num) (by norm_num)]
    norm_num
  rw [e1]
  have e2 : round4 ((0.0001 + 0.9 + (1 - 0.0) + 0.75) / 4) = (0.6625 : ℝ) := by
    rw [round4_eval_down ((0.0001 + 0.9 + (1 - 0.0) + 0.75) / 4) 6625
      (by norm_num) (by norm_num)]
    norm_num
  rw [e2]
  unfold clamp01
  rw [min_eq_right (by norm_num), max_eq_right (by norm_num),
    min_eq_right (by norm_num), max_eq_right (by norm_num)]
  norm_num

/-! ## C7: emotion adapter lemmas -/

theorem sumVals_nil : sumVals [] = 0 := rfl

theorem sumVals_cons (p : String × ℝ) (l : List (String × ℝ)) :
    sumVals (p :: l) = p.2 + sumVals l := by
  simp [sumVals]

theorem sumVals_append (l₁ l₂ : List (String × ℝ)) :
    sumVals (l₁ ++ l₂) = sumVals l₁ + sumVals l₂ := by
  simp [sumVals]

theorem sumVals_nonneg {l : List (String × ℝ)} (h : ∀ q ∈ l, 0 ≤ q.2) :
    0 ≤ sumVals l := by
  induction l with
  | nil => simp [sumVals_nil]
  | cons p ps ih =>
    rw [sumVals_cons]
    have h1 := h p (List.mem_cons_self p ps)
    have h2 := ih (fun q hq => h q (List.mem_cons_of_mem p hq))
    linarith

theorem le_sumVals_of_mem {p : String × ℝ} {l : List (String × ℝ)}
    (hm : p ∈ l) (h : ∀ q ∈ l, 0 ≤ q.2) : p.2 ≤ sumVals l := by
  induction l with
  | nil => cases hm
  | cons a as ih =>
    rw [sumVals_cons]
    rcases List.mem_cons.mp hm with heq | hmem
    · subst heq
      have := sumVals_nonneg (fun q hq => h q (List.mem_cons_of_mem p hq))
      linarith
    · have h1 := h a (List.mem_cons_self a as)
      have h2 := ih hmem (fun q hq => h q (List.mem_cons_of_mem a hq))
      linarith

theorem alookup_isSome_exists {β : Type} {l : List (String × β)} {k : String}
    (h : (alookup l k).isSome) : ∃ p ∈ l, p.1 = k := by
  induction l with
  | nil => simp [alookup] at h
  | cons p ps ih =>
    unfold alookup at h
    by_cases hp : p.1 = k
    · exact ⟨p, List.mem_cons_self p ps, hp⟩
    · rw [if_neg hp] at h
      obtain ⟨q, hq, hk⟩ := ih h
      exact ⟨q, List.mem_cons_of_mem p hq, hk⟩

theorem mem_updateMax_nonneg {acc : List (String × ℝ)} {label : String}
    {v : ℝ} (hacc : ∀ q ∈ acc, 0 ≤ q.2) (hv : 0 ≤ v) :
    ∀ q ∈ updateMax acc label v, 0 ≤ q.2 := by
  intro q hq
  unfold updateMax at hq
  split_ifs at hq with hs
  · obtain ⟨p, hp, rfl⟩ := List.mem_map.mp hq
    by_cases hpl : p.1 = label
    · rw [if_pos hpl]
      exact le_max_of_le_left (hacc p hp)
    · rw [if_neg hpl]
      exact hacc p hp
  · rcases List.mem_append.mp hq with hm | hm
    · exact hacc q hm
    · rw [List.mem_singleton.mp hm]
      exact hv

theorem exists_key_ge_updateMax {acc : List (String × ℝ)} (label : String)
    (v : ℝ) : ∃ q ∈ updateMax acc label v, q.1 = label ∧ v ≤ q.2 := by
  unfold updateMax
  split_ifs with hs
  · obtain ⟨p, hp, hpk⟩ := alookup_isSome_exists hs
    refine ⟨(p.1, max p.2 v), ?_, hpk, le_max_right _ _⟩
    have : (fun q => if q.1 = label then (q.1, max q.2 v) else q) p
        = (p.1, max p.2 v) := by
      dsimp only
      rw [if_pos hpk]
    exact this ▸ List.mem_map_of_mem _ hp
  · exact ⟨(label, v), List.mem_append_right _ (List.mem_singleton.mpr rfl),
      rfl, le_refl v⟩

theorem sumVals_le_updateMax {acc : List (String × ℝ)} (label : String)
    {v : ℝ} (hv : 0 ≤ v) : sumVals acc ≤ sumVals (updateMax acc label v) := by
  unfold updateMax
  split_ifs with hs
  · unfold sumVals
    rw [List.map_map]
    apply List.sum_le_sum
    intro p _
    by_cases hpl : p.1 = label
    · simp only [Function.comp_apply, if_pos hpl]
      exact le_max_left _ _
    · simp only [Function.comp_apply, if_neg hpl]
      exact le_refl _
  · rw [sumVals_append, sumVals_cons, sumVals_nil]
    dsimp only
    linarith

theorem mem_buildStep_nonneg {acc : List (String × ℝ)} {kv : String × ℝ}
    (hacc : ∀ q ∈ acc, 0 ≤ q.2) (hv : 0 ≤ kv.2) :
    ∀ q ∈ buildStep acc kv, 0 ≤ q.2 := by
  unfold buildStep
  cases alookup FER_TO_LABEL kv.1 with
  | none => exact hacc
  | some l => exact mem_updateMax_nonneg hacc hv

theorem sumVals_le_buildStep {acc : List (String × ℝ)} {kv : String × ℝ}
    (hv : 0 ≤ kv.2) : sumVals acc ≤ sumVals (buildStep acc kv) := by
  unfold buildStep
  cases alookup FER_TO_LABEL kv.1 with
  | none => exact le_refl _
  | some l => exact sumVals_le_updateMax l hv

theorem mem_foldl_buildStep_nonneg :
    ∀ (fs : List (String × ℝ)), (∀ kv ∈ fs, 0 ≤ kv.2) →
    ∀ (acc : List (String × ℝ)), (∀ q ∈ acc, 0 ≤ q.2) →
    ∀ q ∈ fs.foldl buildStep acc, 0 ≤ q.2 := by
  intro fs
  induction fs with
  | nil => intro _ acc hacc; exact hacc
  | cons kv fs ih =>
    intro hfs acc hacc
    rw [List.foldl_cons]
    exact ih (fun q hq => hfs q (List.mem_cons_of_mem kv hq)) _
      (mem_buildStep_nonneg hacc (hfs kv (List.mem_cons_self kv fs)))

theorem sumVals_le_foldl_buildStep :
    ∀ (fs : List (String × ℝ)), (∀ kv ∈ fs, 0 ≤ kv.2) →
    ∀ (acc : List (String × ℝ)),
    sumVals acc ≤ sumVals (fs.foldl buildStep acc) := by
  intro fs
  induction fs with
  | nil => intro _ acc; exact le_refl _
  | cons kv fs ih =>
    intro hfs acc
    rw [List.foldl_cons]
    exact le_trans (sumVals_le_buildStep (hfs kv (List.mem_cons_self kv fs)))
      (ih (fun q hq => hfs q (List.mem_cons_of_mem kv hq)) _)

theorem sumVals_foldl_buildStep_pos :
    ∀ (fs : List (String × ℝ)), (∀ kv ∈ fs, 0 ≤ kv.2) →
    (∃ kv ∈ fs, 0 < kv.2 ∧ (alookup FER_TO_LABEL kv.1).isSome) →
    ∀ (acc : List (String × ℝ)), (∀ q ∈ acc, 0 ≤ q.2) →
    0 < sumVals (fs.foldl buildStep acc) := by
  intro fs
  induction fs with
  | nil =>
    rintro _ ⟨kv, hm, -⟩
    cases hm
  | cons kv fs ih =>
    rintro hfs ⟨kv', hm', hpos, hsome⟩ acc hacc
    rw [List.foldl_cons]
    have htail : ∀ q ∈ fs, 0 ≤ q.2 :=
      fun q hq => hfs q (List.mem_cons_of_mem kv hq)
    rcases List.mem_cons.mp hm' with heq | hmem
    · subst heq
      obtain ⟨l, hl⟩ := Option.isSome_iff_exists.mp hsome
      have hstep : 0 < sumVals (buildStep acc kv') := by
        unfold buildStep
        rw [hl]
        obtain ⟨q, hq, -, hvq⟩ := exists_key_ge_updateMax l kv'.2
        have hnn : ∀ r ∈ updateMax acc l kv'.2, 0 ≤ r.2 :=
          mem_updateMax_nonneg hacc (le_of_lt hpos)
        have := le_sumVals_of_mem hq hnn
        linarith
      exact lt_of_lt_of_le hstep (sumVals_le_foldl_buildStep fs htail _)
    · exact ih htail ⟨kv', hmem, hpos, hsome⟩ _
        (mem_buildStep_nonneg hacc (hfs kv (List.mem_cons_self kv fs)))

theorem abs_pyRoundInt_sub (y : ℝ) : |((pyRoundInt y : ℤ) : ℝ) - y| ≤ 1/2 := by
  have h1 : ((⌊y⌋ : ℤ) : ℝ) ≤ y := Int.floor_le y
  have h2 : y < (⌊y⌋ : ℤ) + 1 := Int.lt_floor_add_one y
  unfold pyRoundInt
  split_ifs with ha hb hc
  · rw [abs_le]
    constructor <;> linarith
  · rw [not_lt] at ha
    push_cast
    rw [abs_le]
    constructor <;> linarith
  · rw [not_lt] at ha hb
    rw [abs_le]
    constructor <;> linarith
  · rw [not_lt] at ha hb
    push_cast
    rw [abs_le]
    constructor <;> linarith

theorem abs_round4_sub (x : ℝ) : |round4 x - x| ≤ 1/20000 := by
  unfold round4
  have h := abs_pyRoundInt_sub (x * 10000)
  have heq : ((pyRoundInt (x * 10000) : ℤ) : ℝ) / 10000 - x
      = (((pyRoundInt (x * 10000) : ℤ) : ℝ) - x * 10000) / 10000 := by
    ring
  rw [heq, abs_div, abs_of_pos (by norm_num : (0:ℝ) < 10000)]
  rw [div_le_iff₀ (by norm_num : (0:ℝ) < 10000)]
  linarith

theorem round4_zero : round4 0 = 0 := by
  rw [round4_eval_down 0 0 (by norm_num) (by norm_num)]
  norm_num

theorem abs_sum_map_round4_sub (l : List ℝ) :
    |(l.map round4).sum - l.sum| ≤ l.length * (1/20000) := by
  induction l with
  | nil => simp
  | cons a as ih =>
    have ha := abs_round4_sub a
    have key : (List.map round4 (a :: as)).sum - (a :: as).sum
        = (round4 a - a) + ((as.map round4).sum - as.sum) := by
      simp [List.map_cons, List.sum_cons]
      ring
    rw [key]
    calc |(round4 a - a) + ((as.map round4).sum - as.sum)|
        ≤ |round4 a - a| + |(as.map round4).sum - as.sum| := abs_add _ _
      _ ≤ 1/20000 + as.length * (1/20000) := add_le_add ha ih
      _ = (a :: as).length * (1/20000) := by
          rw [List.length_cons]
          push_cast
          ring

theorem sum_map_div (l : List ℝ) (c : ℝ) :
    (l.map (fun x => x / c)).sum = l.sum / c := by
  induction l with
  | nil => simp
  | cons a as ih =>
    rw [List.map_cons, List.sum_cons, List.sum_cons, ih, add_div]

/-! Key-set lemmas: the built score dict has pairwise-distinct keys, all
canonical, so it holds at most 6 entries. -/

theorem alookup_isSome_iff_mem {β : Type} (l : List (String × β)) (k : String) :
    (alookup l k).isSome ↔ k ∈ l.map Prod.fst := by
  induction l with
  | nil => simp [alookup]
  | cons p ps ih =>
    unfold alookup
    by_cases hp : p.1 = k
    · simp [hp]
    · rw [if_neg hp]
      simp only [List.map_cons, List.mem_cons]
      rw [ih]
      constructor
      · exact Or.inr
      · rintro (heq | hm)
        · exact absurd heq.symm hp
        · exact hm

theorem updateMax_map_fst (acc : List (String × ℝ)) (label : String) (v : ℝ) :
    (updateMax acc label v).map Prod.fst =
      if (alookup acc label).isSome then acc.map Prod.fst
      else acc.map Prod.fst ++ [label] := by
  unfold updateMax
  split_ifs with hs
  · rw [List.map_map]
    apply List.map_congr_left
    intro p _
    by_cases hpl : p.1 = label
    · simp only [Function.comp_apply, if_pos hpl]
    · simp only [Function.comp_apply, if_neg hpl]
  · rw [List.map_append]
    rfl

/-- The built dict's keys are pairwise distinct and all canonical. -/
def goodKeys (acc : List (String × ℝ)) : Prop :=
  (acc.map Prod.fst).Nodup ∧ ∀ k ∈ acc.map Prod.fst, k ∈ EMOTION_LABELS

theorem fer_values_canonical :
    ∀ p ∈ FER_TO_LABEL, p.2 ∈ EMOTION_LABELS := by
  decide

theorem alookup_mem {β : Type} {l : List (String × β)} {k : String} {v : β}
    (h : alookup l k = some v) : (k, v) ∈ l := by
  induction l with
  | nil => simp [alookup] at h
  | cons p ps ih =>
    unfold alookup at h
    by_cases hp : p.1 = k
    · rw [if_pos hp] at h
      cases h
      have hpe : (k, p.2) = p := by
        rw [← hp]
      rw [hpe]
      exact List.mem_cons_self p ps
    · rw [if_neg hp] at h
      exact List.mem_cons_of_mem p (ih h)

theorem goodKeys_updateMax {acc : List (String × ℝ)} {label : String}
    (v : ℝ) (h : goodKeys acc) (hl : label ∈ EMOTION_LABELS) :
    goodKeys (updateMax acc label v) := by
  unfold goodKeys
  rw [updateMax_map_fst]
  split_ifs with hs
  · exact h
  · have hnotmem : label ∉ acc.map Prod.fst := by
      rw [← alookup_isSome_iff_mem]
      exact hs
    constructor
    · rw [List.nodup_append]
      exact ⟨h.1, List.nodup_singleton label,
        fun a ha hb => hnotmem (List.mem_singleton.mp hb ▸ ha)⟩
    · intro k hk
      rcases List.mem_append.mp hk with hm | hm
      · exact h.2 k hm
      · rw [List.mem_singleton.mp hm]
        exact hl

theorem goodKeys_buildStep {acc : List (String × ℝ)} (kv : String × ℝ)
    (h : goodKeys acc) : goodKeys (buildStep acc kv) := by
  unfold buildStep
  cases hm : alookup FER_TO_LABEL kv.1 with
  | none => exact h
  | some l => exact goodKeys_updateMax kv.2 h (fer_values_canonical _ (alookup_mem hm))

theorem goodKeys_foldl_buildStep :
    ∀ (fs acc : List (String × ℝ)), goodKeys acc →
    goodKeys (fs.foldl buildStep acc) := by
  intro fs
  induction fs with
  | nil => exact fun acc h => h
  | cons kv fs ih =>
    intro acc h
    rw [List.foldl_cons]
    exact ih _ (goodKeys_buildStep kv h)

theorem goodKeys_buildScores (fs : List (String × ℝ)) :
    goodKeys (buildScores fs) :=
  goodKeys_foldl_buildStep fs [] ⟨List.nodup_nil, by simp⟩

theorem length_le_six_of_goodKeys {acc : List (String × ℝ)}
    (h : goodKeys acc) : acc.length ≤ 6 := by
  have hlen : acc.length = (acc.map Prod.fst).length :=
    (List.length_map acc Prod.fst).symm
  rw [hlen]
  have hcard : (acc.map Prod.fst).length = (acc.map Prod.fst).toFinset.card :=
    (List.toFinset_card_of_nodup h.1).symm
  rw [hcard]
  have hsub : (acc.map Prod.fst).toFinset ⊆ EMOTION_LABELS.toFinset := by
    intro k hk
    rw [List.mem_toFinset] at hk ⊢
    exact h.2 k hk
  calc (acc.map Prod.fst).toFinset.card
      ≤ EMOTION_LABELS.toFinset.card := Finset.card_le_card hsub
    _ = 6 := by decide

theorem alookup_cons {β : Type} (p : String × β) (ps : List (String × β))
    (k : String) :
    alookup (p :: ps) k = if p.1 = k then some p.2 else alookup ps k := rfl

theorem alookup_append {β : Type} (xs ys : List (String × β)) (k : String) :
    alookup (xs ++ ys) k = match alookup xs k with
      | some w => some w
      | none => alookup ys k := by
  induction xs with
  | nil => rfl
  | cons p ps ih =>
    rw [List.cons_append, alookup_cons, alookup_cons]
    by_cases hp : p.1 = k
    · rw [if_pos hp, if_pos hp]
    · rw [if_neg hp, if_neg hp, ih]

theorem alookup_map_updateFn (label : String) (v : ℝ)
    (acc : List (String × ℝ)) (k : String) :
    alookup (acc.map (fun p => if p.1 = label then (p.1, max p.2 v) else p)) k
      = Option.map (fun w => if k = label then max w v else w)
          (alookup acc k) := by
  induction acc with
  | nil => rfl
  | cons p ps ih =>
    have hfst : ((if p.1 = label then (p.1, max p.2 v) else p) : String × ℝ).1
        = p.1 := by
      split_ifs <;> rfl
    rw [List.map_cons, alookup_cons, alookup_cons, hfst]
    by_cases hp : p.1 = k
    · rw [if_pos hp, if_pos hp, Option.map_some']
      by_cases hpl : p.1 = label
      · rw [if_pos hpl]
        rw [if_pos (hp.symm.trans hpl)]
      · rw [if_neg hpl]
        rw [if_neg (fun hkl => hpl (hp.trans hkl))]
    · rw [if_neg hp, if_neg hp, ih]

theorem alookup_updateMax (acc : List (String × ℝ)) (label : String)
    (v : ℝ) (k : String) :
    alookup (updateMax acc label v) k =
      if k = label then
        match alookup acc label with
        | some w => some (max w v)
        | none => some v
      else alookup acc k := by
  unfold updateMax
  by_cases hs : (alookup acc label).isSome
  · rw [if_pos hs, alookup_map_updateFn]
    by_cases hk : k = label
    · rw [if_pos hk]
      subst hk
      obtain ⟨w, hw⟩ := Option.isSome_iff_exists.mp hs
      rw [hw, Option.map_some']
      rw [if_pos rfl]
    · rw [if_neg hk]
      cases ha : alookup acc k with
      | none => rfl
      | some w =>
        rw [Option.map_some']
        rw [if_neg hk]
  · rw [if_neg hs, alookup_append]
    have hnone : alookup acc label = none := by
      cases ha : alookup acc label with
      | none => rfl
      | some w =>
        rw [ha] at hs
        simp at hs
    by_cases hk : k = label
    · subst hk
      rw [hnone]
      dsimp [alookup]
    · rw [if_neg hk]
      cases ha : alookup acc k with
      | some w => rfl
      | none =>
        dsimp [alookup]
        rw [if_neg (fun h => hk h.symm)]

/-- Invariant of the mapping loop: the accumulated dict holds, for every
canonical label, exactly the maximum of the processed native scores mapping
to it. -/
def maxKept (fs₀ acc : List (String × ℝ)) : Prop :=
  (∀ l w, alookup acc l = some w →
    (∃ kv ∈ fs₀, alookup FER_TO_LABEL kv.1 = some l ∧ kv.2 = w) ∧
    (∀ kv ∈ fs₀, alookup FER_TO_LABEL kv.1 = some l → kv.2 ≤ w)) ∧
  (∀ kv ∈ fs₀, ∀ l, alookup FER_TO_LABEL kv.1 = some l →
    (alookup acc l).isSome)

theorem maxKept_buildStep {fs₀ acc : List (String × ℝ)}
    (h : maxKept fs₀ acc) (kv : String × ℝ) :
    maxKept (fs₀ ++ [kv]) (buildStep acc kv) := by
  obtain ⟨h1, h2⟩ := h
  unfold buildStep
  cases hl : alookup FER_TO_LABEL kv.1 with
  | none =>
    constructor
    · intro l w hw
      obtain ⟨⟨kv', hm', hmap', hval'⟩, hub⟩ := h1 l w hw
      refine ⟨⟨kv', List.mem_append_left _ hm', hmap', hval'⟩, ?_⟩
      intro q hq hmap
      rcases List.mem_append.mp hq with hmq | hmq
      · exact hub q hmq hmap
      · rw [List.mem_singleton.mp hmq] at hmap
        rw [hl] at hmap
        cases hmap
    · intro q hq l hmap
      rcases List.mem_append.mp hq with hmq | hmq
      · exact h2 q hmq l hmap
      · rw [List.mem_singleton.mp hmq] at hmap
        rw [hl] at hmap
        cases hmap
  | some l₀ =>
    constructor
    · intro l w hw
      rw [alookup_updateMax] at hw
      by_cases hk : l = l₀
      · rw [if_pos hk] at hw
        subst hk
        cases ha : alookup acc l with
        | none =>
          rw [ha] at hw
          cases hw
          refine ⟨⟨kv, List.mem_append_right _ (List.mem_singleton.mpr rfl),
            hl, rfl⟩, ?_⟩
          intro q hq hmap
          rcases List.mem_append.mp hq with hmq | hmq
          · exact absurd (h2 q hmq l hmap) (by rw [ha]; simp)
          · rw [List.mem_singleton.mp hmq]
        | some w₀ =>
          rw [ha] at hw
          cases hw
          obtain ⟨⟨kv', hm', hmap', hval'⟩, hub⟩ := h1 l w₀ ha
          constructor
          · rcases max_choice w₀ kv.2 with hmax | hmax
            · exact ⟨kv', List.mem_append_left _ hm', hmap',
                by rw [hval', hmax]⟩
            · exact ⟨kv, List.mem_append_right _ (List.mem_singleton.mpr rfl),
                hl, by rw [hmax]⟩
          · intro q hq hmap
            rcases List.mem_append.mp hq with hmq | hmq
            · exact le_trans (hub q hmq hmap) (le_max_left _ _)
            · rw [List.mem_singleton.mp hmq]
              exact le_max_right _ _
      · rw [if_neg hk] at hw
        obtain ⟨⟨kv', hm', hmap', hval'⟩, hub⟩ := h1 l w hw
        refine ⟨⟨kv', List.mem_append_left _ hm', hmap', hval'⟩, ?_⟩
        intro q hq hmap
        rcases List.mem_append.mp hq with hmq | hmq
        · exact hub q hmq hmap
        · rw [List.mem_singleton.mp hmq] at hmap
          rw [hl] at hmap
          cases hmap
          exact absurd rfl hk
    · intro q hq l hmap
      rw [alookup_updateMax]
      by_cases hk : l = l₀
      · rw [if_pos hk]
        cases alookup acc l₀ <;> simp
      · rw [if_neg hk]
        rcases List.mem_append.mp hq with hmq | hmq
        · exact h2 q hmq l hmap
        · rw [List.mem_singleton.mp hmq] at hmap
          rw [hl] at hmap
          cases hmap
          exact absurd rfl hk

theorem maxKept_foldl :
    ∀ (fs pre acc : List (String × ℝ)), maxKept pre acc →
    maxKept (pre ++ fs) (fs.foldl buildStep acc) := by
  intro fs
  induction fs with
  | nil =>
    intro pre acc h
    rw [List.append_nil]
    exact h
  | cons kv fs ih =>
    intro pre acc h
    rw [List.foldl_cons]
    have hstep := ih (pre ++ [kv]) _ (maxKept_buildStep h kv)
    rwa [List.append_assoc, List.singleton_append] at hstep

theorem maxKept_buildScores (fs : List (String × ℝ)) :
    maxKept fs (buildScores fs) := by
  have h0 : maxKept [] [] := by
    constructor
    · intro l w hw
      simp [alookup] at hw
    · intro q hq
      cases hq
  have h := maxKept_foldl fs [] [] h0
  rwa [List.nil_append] at h

theorem argmax_fold_spec :
    ∀ (ps : List (String × ℝ)) (p : String × ℝ),
    (ps.foldl (fun best q => if best.2 < q.2 then q else best) p = p ∨
     ps.foldl (fun best q => if best.2 < q.2 then q else best) p ∈ ps) ∧
    p.2 ≤ (ps.foldl (fun best q => if best.2 < q.2 then q else best) p).2 ∧
    ∀ q ∈ ps, q.2 ≤ (ps.foldl (fun best q => if best.2 < q.2 then q else best) p).2 := by
  intro ps
  induction ps with
  | nil =>
    intro p
    exact ⟨Or.inl rfl, le_refl _, fun q hq => absurd hq (List.not_mem_nil q)⟩
  | cons a as ih =>
    intro p
    rw [List.foldl_cons]
    obtain ⟨hmem, hle, hall⟩ := ih (if p.2 < a.2 then a else p)
    refine ⟨?_, ?_, ?_⟩
    · rcases hmem with heq | hmem
      · by_cases hpa : p.2 < a.2
        · right
          rw [heq, if_pos hpa]
          exact List.mem_cons_self a as
        · left
          rw [heq, if_neg hpa]
      · right
        exact List.mem_cons_of_mem a hmem
    · by_cases hpa : p.2 < a.2
      · rw [if_pos hpa] at hle ⊢
        exact le_trans (le_of_lt hpa) hle
      · rw [if_neg hpa] at hle ⊢
        exact hle
    · intro q hq
      rcases List.mem_cons.mp hq with heq | hmem
      · subst heq
        by_cases hpa : p.2 < q.2
        · rw [if_pos hpa] at hle ⊢
          exact hle
        · rw [if_neg hpa] at hle ⊢
          exact le_trans (not_lt.mp hpa) hle
      · exact hall q hmem

theorem argmaxEntry_spec (p : String × ℝ) (ps : List (String × ℝ)) :
    argmaxEntry (p :: ps) ∈ p :: ps ∧
    ∀ q ∈ p :: ps, q.2 ≤ (argmaxEntry (p :: ps)).2 := by
  have hae : argmaxEntry (p :: ps)
      = ps.foldl (fun best q => if best.2 < q.2 then q else best) p := rfl
  rw [hae]
  obtain ⟨hmem, hle, hall⟩ := argmax_fold_spec ps p
  refine ⟨?_, ?_⟩
  · rcases hmem with heq | hmem
    · rw [heq]
      exact List.mem_cons_self p ps
    · exact List.mem_cons_of_mem p hmem
  · intro q hq
    rcases List.mem_cons.mp hq with heq | hmem
    · subst heq
      exact hle
    · exact hall q hmem

theorem sumVals_fillMissing (sc : List (String × ℝ)) :
    sumVals (fillMissing sc) = sumVals sc := by
  unfold fillMissing
  rw [sumVals_append]
  have hz : sumVals ((EMOTION_LABELS.filter
      (fun l => (alookup sc l).isNone)).map (fun l => (l, (0 : ℝ)))) = 0 := by
    unfold sumVals
    rw [List.map_map]
    apply List.sum_eq_zero
    intro x hx
    obtain ⟨l, -, rfl⟩ := List.mem_map.mp hx
    rfl
  rw [hz, add_zero]

theorem fillMissing_ne_nil (sc : List (String × ℝ)) : fillMissing sc ≠ [] := by
  cases sc with
  | cons p ps =>
    unfold fillMissing
    simp
  | nil =>
    intro h
    have h6 : (fillMissing ([] : List (String × ℝ))).length = 6 := rfl
    rw [h] at h6
    simp at h6

/-- The claim's guarantees for the emotion adapter's normalized output,
with the sum tolerance amended from 1e-6 to 3e-4 (six scores, each rounded
to 4 decimals). -/
theorem emotionFromScores_spec (fs : List (String × ℝ))
    (hnn : ∀ kv ∈ fs, 0 ≤ kv.2)
    (hpos : ∃ kv ∈ fs, 0 < kv.2 ∧ (alookup FER_TO_LABEL kv.1).isSome) :
    |sumVals (emotionFromScores fs).scores - 1| ≤ 3/10000 ∧
    ((emotionFromScores fs).label, (emotionFromScores fs).confidence)
      ∈ (emotionFromScores fs).scores ∧
    (∀ kv ∈ (emotionFromScores fs).scores,
      kv.2 ≤ (emotionFromScores fs).confidence) := by
  have hpos' : 0 < sumVals (fillMissing (buildScores fs)) := by
    rw [sumVals_fillMissing]
    exact sumVals_foldl_buildStep_pos fs hnn hpos []
      (fun q hq => absurd hq (List.not_mem_nil q))
  have hred : emotionFromScores fs =
      ⟨(argmaxEntry ((fillMissing (buildScores fs)).map
          (fun p => (p.1, round4 (p.2 / sumVals (fillMissing (buildScores fs))))))).1,
       (argmaxEntry ((fillMissing (buildScores fs)).map
          (fun p => (p.1, round4 (p.2 / sumVals (fillMissing (buildScores fs))))))).2,
       (fillMissing (buildScores fs)).map
          (fun p => (p.1, round4 (p.2 / sumVals (fillMissing (buildScores fs)))))⟩ := by
    unfold emotionFromScores
    dsimp only
    rw [if_pos hpos']
  rw [hred]
  dsimp only
  set B := buildScores fs with hB
  set M := (EMOTION_LABELS.filter (fun l => (alookup B l).isNone)).map
    (fun l => (l, (0 : ℝ))) with hM
  set T := sumVals (fillMissing B) with hT
  have hfm : fillMissing B = B ++ M := rfl
  have hmiss0 : ∀ q ∈ M, q.2 = 0 := by
    intro q hq
    rw [hM] at hq
    obtain ⟨l, -, rfl⟩ := List.mem_map.mp hq
    rfl
  have hsumM : sumVals M = 0 := by
    unfold sumVals
    apply List.sum_eq_zero
    intro x hx
    obtain ⟨q, hq, rfl⟩ := List.mem_map.mp hx
    exact hmiss0 q hq
  have hTB : T = sumVals B := by
    rw [hT, hfm, sumVals_append, hsumM, add_zero]
  have hmapM : sumVals (M.map (fun p => (p.1, round4 (p.2 / T)))) = 0 := by
    unfold sumVals
    rw [List.map_map]
    apply List.sum_eq_zero
    intro x hx
    obtain ⟨q, hq, rfl⟩ := List.mem_map.mp hx
    dsimp only [Function.comp]
    rw [hmiss0 q hq, zero_div, round4_zero]
  have hmapB : sumVals (B.map (fun p => (p.1, round4 (p.2 / T))))
      = ((B.map (fun p => p.2 / T)).map round4).sum := by
    unfold sumVals
    rw [List.map_map, List.map_map]
    rfl
  have hLsum : (B.map (fun p => p.2 / T)).sum = 1 := by
    have hsplit : B.map (fun p => p.2 / T)
        = (B.map Prod.snd).map (fun x => x / T) := by
      rw [List.map_map]
      rfl
    rw [hsplit, sum_map_div]
    rw [show (B.map Prod.snd).sum = sumVals B from rfl, ← hTB]
    exact div_self hpos'.ne'
  have hlen : B.length ≤ 6 := length_le_six_of_goodKeys (goodKeys_buildScores fs)
  refine ⟨?_, ?_, ?_⟩
  · have hNsplit : sumVals ((fillMissing B).map (fun p => (p.1, round4 (p.2 / T))))
        = sumVals (B.map (fun p => (p.1, round4 (p.2 / T))))
          + sumVals (M.map (fun p => (p.1, round4 (p.2 / T)))) := by
      rw [hfm, List.map_append, sumVals_append]
    rw [hNsplit, hmapM, add_zero, hmapB]
    calc |((B.map (fun p => p.2 / T)).map round4).sum - 1|
        = |((B.map (fun p => p.2 / T)).map round4).sum
            - (B.map (fun p => p.2 / T)).sum| := by rw [hLsum]
      _ ≤ (B.map (fun p => p.2 / T)).length * (1/20000) :=
          abs_sum_map_round4_sub _
      _ = B.length * (1/20000) := by rw [List.length_map]
      _ ≤ 6 * (1/20000) := by
          apply mul_le_mul_of_nonneg_right _ (by norm_num)
          exact_mod_cast hlen
      _ ≤ 3/10000 := by norm_num
  · cases hN : (fillMissing B).map (fun p => (p.1, round4 (p.2 / T))) with
    | nil =>
      exact absurd (List.map_eq_nil_iff.mp hN) (fillMissing_ne_nil B)
    | cons p ps =>
      rw [Prod.mk.eta]
      exact (argmaxEntry_spec p ps).1
  · intro kv hkv
    cases hN : (fillMissing B).map (fun p => (p.1, round4 (p.2 / T))) with
    | nil =>
      exact absurd (List.map_eq_nil_iff.mp hN) (fillMissing_ne_nil B)
    | cons p ps =>
      rw [hN] at hkv
      exact (argmaxEntry_spec p ps).2 kv hkv

/-- C7 (amended): For every face crop on which the underlying emotion
model returns at least one positive native score, the adapter's returned
scores mapping over the 6 canonical labels sums to 1.0 within 3·10⁻⁴ (not
10⁻⁶: each of the six normalized scores is rounded to 4 decimal places),
the returned label carries the maximum post-normalization score, and when
several native labels map to one canonical label the maximum (not the sum)
of their scores is kept before renormalization. -/
theorem analyze_emotion_spec {d m : ℕ} (ext : Ext d m) (crop : Crop)
    (det : Crop → Except String (List (List (String × ℝ))))
    (e0 : List (String × ℝ)) (rest : List (List (String × ℝ)))
    (hf : ext.fer = some det) (hd : det crop = .ok (e0 :: rest))
    (hnn : ∀ kv ∈ e0, 0 ≤ kv.2)
    (hpos : ∃ kv ∈ e0, 0 < kv.2 ∧ (alookup FER_TO_LABEL kv.1).isSome) :
    |sumVals (analyze_emotion ext crop).scores - 1| ≤ 3/10000 ∧
    ((analyze_emotion ext crop).label, (analyze_emotion ext crop).confidence)
      ∈ (analyze_emotion ext crop).scores ∧
    (∀ kv ∈ (analyze_emotion ext crop).scores,
      kv.2 ≤ (analyze_emotion ext crop).confidence) ∧
    (∀ l w, alookup (buildScores e0) l = some w →
      (∃ kv ∈ e0, alookup FER_TO_LABEL kv.1 = some l ∧ kv.2 = w) ∧
      (∀ kv ∈ e0, alookup FER_TO_LABEL kv.1 = some l → kv.2 ≤ w)) := by
  have hred : analyze_emotion ext crop = emotionFromScores e0 := by
    unfold analyze_emotion
    rw [hf]
    dsimp only
    rw [hd]
  rw [hred]
  obtain ⟨h1, h2, h3⟩ := emotionFromScores_spec e0 hnn hpos
  exact ⟨h1, h2, h3, (maxKept_buildScores e0).1⟩

/-- An `Ext` bundle whose FER reports one face with the single native score
happy = 1. -/
noncomputable def extFerHappy : Ext 1 1 :=
  ⟨fun _ => some 0, fun _ => [], none,
   some (fun _ => .ok [[("happy", 1)]]), fun _ _ => 0, fun _ _ => 0⟩

/-- Witness for the amended C7 at a concrete input. -/
theorem analyze_emotion_spec_witness :
    extFerHappy.fer
      = some (fun _ => .ok [[("happy", (1 : ℝ))]]) ∧
    (fun _ => (.ok [[("happy", (1 : ℝ))]] :
        Except String (List (List (String × ℝ))))) 0
      = .ok ([("happy", (1 : ℝ))] :: []) ∧
    (∀ kv ∈ [("happy", (1 : ℝ))], 0 ≤ kv.2) ∧
    (∃ kv ∈ [("happy", (1 : ℝ))],
      0 < kv.2 ∧ (alookup FER_TO_LABEL kv.1).isSome) ∧
    (|sumVals (analyze_emotion extFerHappy 0).scores - 1| ≤ 3/10000 ∧
     ((analyze_emotion extFerHappy 0).label,
       (analyze_emotion extFerHappy 0).confidence)
       ∈ (analyze_emotion extFerHappy 0).scores ∧
     (∀ kv ∈ (analyze_emotion extFerHappy 0).scores,
       kv.2 ≤ (analyze_emotion extFerHappy 0).confidence) ∧
     (∀ l w, alookup (buildScores [("happy", (1 : ℝ))]) l = some w →
       (∃ kv ∈ [("happy", (1 : ℝ))],
         alookup FER_TO_LABEL kv.1 = some l ∧ kv.2 = w) ∧
       (∀ kv ∈ [("happy", (1 : ℝ))],
         alookup FER_TO_LABEL kv.1 = some l → kv.2 ≤ w))) :=
  ⟨rfl, rfl,
   fun kv h => by
     rw [List.mem_singleton.mp h]
     norm_num,
   ⟨("happy", (1 : ℝ)), List.mem_singleton.mpr rfl, by norm_num, rfl⟩,
   analyze_emotion_spec extFerHappy 0 _ [("happy", (1 : ℝ))] [] rfl rfl
     (fun kv h => by
       rw [List.mem_singleton.mp h]
       norm_num)
     ⟨("happy", (1 : ℝ)), List.mem_singleton.mpr rfl, by norm_num, rfl⟩⟩

/-- An `Ext` bundle whose FER reports one face with native scores
happy = sad = neutral = 1. -/
noncomputable def extFerThree : Ext 1 1 :=
  ⟨fun _ => some 0, fun _ => [], none,
   some (fun _ => .ok [[("happy", 1), ("sad", 1), ("neutral", 1)]]),
   fun _ _ => 0, fun _ _ => 0⟩

/-- Counterexample to C7 as literally stated: with positive native scores
happy = sad = neutral = 1, each normalized score 1/3 is returned as the
rounded 0.3333, so the scores sum to 0.9999 — off 1.0 by 10⁻⁴, beyond the
claimed 10⁻⁶ tolerance. -/
theorem analyze_emotion_sum_not_within_claim_tolerance :
    (∀ kv ∈ [("happy", (1 : ℝ)), ("sad", 1), ("neutral", 1)], 0 ≤ kv.2) ∧
    (∃ kv ∈ [("happy", (1 : ℝ)), ("sad", 1), ("neutral", 1)],
      0 < kv.2 ∧ (alookup FER_TO_LABEL kv.1).isSome) ∧
    ¬ |sumVals (analyze_emotion extFerThree 0).scores - 1| ≤ 1/1000000 := by
  refine ⟨?_, ?_, ?_⟩
  · intro kv h
    rcases List.mem_cons.mp h with h1 | h
    · rw [h1]
      norm_num
    rcases List.mem_cons.mp h with h1 | h
    · rw [h1]
      norm_num
    rcases List.mem_cons.mp h with h1 | h
    · rw [h1]
      norm_num
    cases h
  · exact ⟨("happy", (1 : ℝ)), List.mem_cons_self _ _, by norm_num, rfl⟩
  · have hbuild : buildScores [("happy", (1 : ℝ)), ("sad", 1), ("neutral", 1)]
        = [("Happy", (1 : ℝ)), ("Sad", 1), ("Neutral", 1)] := rfl
    have hfill : fillMissing [("Happy", (1 : ℝ)), ("Sad", 1), ("Neutral", 1)]
        = [("Happy", (1 : ℝ)), ("Sad", 1), ("Neutral", 1),
           ("Angry", 0), ("Fear", 0), ("Surprise", 0)] := rfl
    have htot : sumVals [("Happy", (1 : ℝ)), ("Sad", 1), ("Neutral", 1),
        ("Angry", 0), ("Fear", 0), ("Surprise", 0)] = 3 := by
      unfold sumVals
      simp only [List.map_cons, List.map_nil, List.sum_cons, List.sum_nil]
      norm_num
    have hsc : (analyze_emotion extFerThree 0).scores
        = [("Happy", round4 ((1 : ℝ)/3)), ("Sad", round4 ((1 : ℝ)/3)),
           ("Neutral", round4 ((1 : ℝ)/3)), ("Angry", round4 ((0 : ℝ)/3)),
           ("Fear", round4 ((0 : ℝ)/3)), ("Surprise", round4 ((0 : ℝ)/3))] := by
      have hred : analyze_emotion extFerThree 0
          = emotionFromScores [("happy", (1 : ℝ)), ("sad", 1), ("neutral", 1)] :=
        rfl
      rw [hred]
      unfold emotionFromScores
      dsimp only
      rw [hbuild, hfill, htot, if_pos (by norm_num : (0:ℝ) < 3)]
      dsimp only [List.map_cons, List.map_nil]
    have h13 : round4 ((1 : ℝ)/3) = 0.3333 := by
      rw [round4_eval_down ((1 : ℝ)/3) 3333 (by norm_num) (by norm_num)]
      norm_num
    have h03 : round4 ((0 : ℝ)/3) = 0 := by
      rw [zero_div]
      exact round4_zero
    rw [hsc, h13, h03]
    unfold sumVals
    simp only [List.map_cons, List.map_nil, List.sum_cons, List.sum_nil]
    rw [not_le]
    have hval : ((0.3333 : ℝ) + (0.3333 + (0.3333 + (0 + (0 + (0 + 0)))))) - 1
        = -(0.0001 : ℝ) := by
      norm_num
    rw [hval, abs_neg, abs_of_pos (by norm_num : (0:ℝ) < 0.0001)]
    norm_num

end RealSync
